import Mathlib

/-!
Verification of the Ghost Teammate orchestration core against its
repository sources: the Supabase migration
(supabase/migrations/20231228000000_initial_schema.sql), the dashboard
(frontend/src/app/dashboard/page.tsx), and — for the backend operations
that only the documentation describes — models built from the design
document's own words (each such definition is marked
`Modelled from the spec:` in its doc comment).

All machine data is embedded shallowly: SQL CHECK constraints become
Bool-valued predicates on String, table rows become structures,
the BEFORE UPDATE trigger becomes a function on rows, and row level
security policies become visibility filters.
-/

namespace Ghost

/-- The jobs.status CHECK constraint of the migration (line 42):
status IN ('pending', 'running', 'waiting_approval', 'waiting_info',
'completed', 'failed', 'rejected'). -/
def jobs_status_check (s : String) : Bool :=
  s = "pending" || s = "running" || s = "waiting_approval" ||
  s = "waiting_info" || s = "completed" || s = "failed" || s = "rejected"

/-- The approvals.status CHECK constraint of the migration (line 59):
status IN ('pending', 'approved', 'rejected'). -/
def approvals_status_check (s : String) : Bool :=
  s = "pending" || s = "approved" || s = "rejected"

/-- The DEFAULT value of jobs.status in the migration (line 42). -/
def jobs_status_default : String := "pending"

/-- The DEFAULT value of approvals.status in the migration (line 59). -/
def approvals_status_default : String := "pending"

/-- The nine job statuses named by the specification (data model section). -/
def specJobStatuses : List String :=
  ["pending", "initializing", "running", "waiting_approval", "waiting_info",
   "completed", "failed", "rejected", "killed"]

/-- The status filter the dashboard uses for active jobs
(frontend/src/app/dashboard/page.tsx, fetchJobs, line 138). -/
def dashboardActiveStatuses : List String :=
  ["pending", "initializing", "running", "waiting_approval", "waiting_info"]

/-- The status filter the dashboard uses for past (archived) jobs
(frontend/src/app/dashboard/page.tsx, fetchJobs, line 147). -/
def dashboardPastStatuses : List String :=
  ["completed", "failed", "rejected", "killed"]

/-- The status keys the dashboard StatusBadge component colors
(frontend/src/app/dashboard/page.tsx, lines 51-62). -/
def statusBadgeKeys : List String :=
  ["running", "completed", "waiting_approval", "waiting_info", "failed",
   "rejected", "killed", "pending", "initializing"]

/-- Modelled from the spec: the kill transition of the state machine,
`running|waiting_approval|waiting_info --(kill signal)--> killed [terminal]`.
The backend signal handler itself is not part of the repository sources;
only the schema and the dashboard are. -/
def killTransition (s : String) : Option String :=
  if s = "running" || s = "waiting_approval" || s = "waiting_info" then
    some "killed"
  else
    none

/-- A row of the jobs table (migration lines 37-48).  Nullable columns are
Options; timestamps are abstracted to Nat instants. -/
structure JobRow where
  id : String
  user_id : Option String
  goal : String
  status : String
  created_at : Nat
  updated_at : Nat
deriving DecidableEq

/-- A row of the approvals table (migration lines 51-63), restricted to the
columns the claims mention. -/
structure ApprovalRow where
  id : String
  job_id : Option String
  status : String
  decided_at : Option Nat
deriving DecidableEq

/-- A row of the task_logs table (migration lines 66-74). -/
structure TaskLogRow where
  id : String
  job_id : String
  action : Option String
  reasoning : Option String
  finished : Bool
  created_at : Nat
deriving DecidableEq

/-- The trigger function update_updated_at_column of the migration
(lines 183-189): before every UPDATE it overwrites NEW.updated_at with
NOW(), whatever the update itself wrote there. -/
def update_updated_at_column (new : JobRow) (now : Nat) : JobRow :=
  { new with updated_at := now }

/-- An UPDATE of a jobs row as the database applies it: the statement's row
transformation f runs first, then the BEFORE UPDATE trigger
update_jobs_updated_at (migration lines 200-202) rewrites updated_at to the
current time. -/
def jobUpdate (row : JobRow) (f : JobRow → JobRow) (now : Nat) : JobRow :=
  update_updated_at_column (f row) now

/-- C1: the claim says the persisted job status is one of exactly nine
values and that all nine — including initializing and killed — are
storable.  The schema's CHECK constraint accepts only seven of them and
rejects both initializing and killed, even though the repository's own
dashboard filters for and renders those two statuses. -/
theorem C1_initializing_killed_not_storable :
    jobs_status_check "initializing" = false ∧
    jobs_status_check "killed" = false ∧
    "initializing" ∈ dashboardActiveStatuses ∧
    "killed" ∈ dashboardPastStatuses ∧
    "initializing" ∈ statusBadgeKeys ∧
    "killed" ∈ statusBadgeKeys ∧
    specJobStatuses.filter (fun s => jobs_status_check s) =
      ["pending", "running", "waiting_approval", "waiting_info",
       "completed", "failed", "rejected"] := by
  decide

/-- C5: the claim says a kill signal delivered in waiting_approval
(likewise running or waiting_info) moves the job to the terminal status
killed.  The spec-modelled kill transition indeed targets killed, and the
dashboard's archive filter expects jobs with that status, but the schema's
CHECK constraint rejects the status killed, so the transition can never be
persisted. -/
theorem C5_kill_targets_unstorable_status :
    killTransition "waiting_approval" = some "killed" ∧
    killTransition "running" = some "killed" ∧
    killTransition "waiting_info" = some "killed" ∧
    killTransition "waiting_approval" ≠ some "rejected" ∧
    killTransition "waiting_approval" ≠ some "completed" ∧
    jobs_status_check "killed" = false ∧
    "killed" ∈ dashboardPastStatuses := by
  decide

/-- The RLS SELECT policy on jobs ("Users can view own jobs", migration
lines 131-133): USING auth.uid() = user_id.  A NULL user_id makes the
predicate non-true, so the row is invisible. -/
def jobVisible (uid : String) (j : JobRow) : Bool :=
  j.user_id = some uid

/-- The RLS SELECT policy on approvals ("Users can view own approvals",
migration lines 143-151): EXISTS a jobs row with jobs.id = approvals.job_id
and jobs.user_id = auth.uid(). -/
def approvalVisible (uid : String) (jobs : List JobRow) (a : ApprovalRow) : Bool :=
  jobs.any (fun jb => a.job_id = some jb.id ∧ jb.user_id = some uid)

/-- The RLS SELECT policy on task_logs ("Users can view own task logs",
migration lines 154-162): EXISTS a jobs row with jobs.id = task_logs.job_id
and jobs.user_id = auth.uid(). -/
def taskLogVisible (uid : String) (jobs : List JobRow) (l : TaskLogRow) : Bool :=
  jobs.any (fun jb => l.job_id = jb.id ∧ jb.user_id = some uid)

/-- The persisted database state the read surface filters over. -/
structure Database where
  jobs : List JobRow
  approvals : List ApprovalRow
  task_logs : List TaskLogRow

/-- The jobs rows a SELECT by the authenticated user uid returns under RLS. -/
def visibleJobs (uid : String) (db : Database) : List JobRow :=
  db.jobs.filter (jobVisible uid)

/-- The approvals rows a SELECT by the authenticated user uid returns under RLS. -/
def visibleApprovals (uid : String) (db : Database) : List ApprovalRow :=
  db.approvals.filter (approvalVisible uid db.jobs)

/-- The task_logs rows a SELECT by the authenticated user uid returns under RLS. -/
def visibleTaskLogs (uid : String) (db : Database) : List TaskLogRow :=
  db.task_logs.filter (taskLogVisible uid db.jobs)

/-- C10: under the RLS policies a user sees a jobs row only when they own
it, and an approvals or task_logs row only through a jobs row they own;
when job ids are unique (they are a primary key), two distinct users can
never see the same job, approval, or log row. -/
theorem C10_rls_isolation (uid : String) (db : Database) :
    (∀ j ∈ visibleJobs uid db, j.user_id = some uid) ∧
    (∀ a ∈ visibleApprovals uid db,
      ∃ j ∈ db.jobs, a.job_id = some j.id ∧ j.user_id = some uid) ∧
    (∀ l ∈ visibleTaskLogs uid db,
      ∃ j ∈ db.jobs, l.job_id = j.id ∧ j.user_id = some uid) ∧
    (∀ v, uid ≠ v → ∀ j ∈ visibleJobs uid db, j ∉ visibleJobs v db) ∧
    ((db.jobs.map JobRow.id).Nodup → ∀ v, uid ≠ v →
      ∀ a ∈ visibleApprovals uid db, a ∉ visibleApprovals v db) ∧
    ((db.jobs.map JobRow.id).Nodup → ∀ v, uid ≠ v →
      ∀ l ∈ visibleTaskLogs uid db, l ∉ visibleTaskLogs v db) := by
  refine ⟨?_, ?_, ?_, ?_, ?_, ?_⟩
  · intro j hj
    have := (List.mem_filter.mp hj).2
    simpa [jobVisible] using this
  · intro a ha
    have h := (List.mem_filter.mp ha).2
    simp only [approvalVisible, List.any_eq_true, decide_eq_true_eq] at h
    obtain ⟨jb, hmem, h1, h2⟩ := h
    exact ⟨jb, hmem, h1, h2⟩
  · intro l hl
    have h := (List.mem_filter.mp hl).2
    simp only [taskLogVisible, List.any_eq_true, decide_eq_true_eq] at h
    obtain ⟨jb, hmem, h1, h2⟩ := h
    exact ⟨jb, hmem, h1, h2⟩
  · intro v hne j hj hj'
    have h1 := (List.mem_filter.mp hj).2
    have h2 := (List.mem_filter.mp hj').2
    simp only [jobVisible, decide_eq_true_eq] at h1 h2
    exact hne (by injection h1 ▸ h2)
  · intro hnd v hne a ha ha'
    have h1 := (List.mem_filter.mp ha).2
    have h2 := (List.mem_filter.mp ha').2
    simp only [approvalVisible, List.any_eq_true, decide_eq_true_eq] at h1 h2
    obtain ⟨j1, hm1, hid1, hu1⟩ := h1
    obtain ⟨j2, hm2, hid2, hu2⟩ := h2
    have hid : j1.id = j2.id := by
      have := hid1 ▸ hid2
      injection this
    have hj12 : j1 = j2 := List.inj_on_of_nodup_map hnd hm1 hm2 hid
    have : some uid = some v := hu1 ▸ (hj12 ▸ hu2)
    exact hne (by injection this)
  · intro hnd v hne l hl hl'
    have h1 := (List.mem_filter.mp hl).2
    have h2 := (List.mem_filter.mp hl').2
    simp only [taskLogVisible, List.any_eq_true, decide_eq_true_eq] at h1 h2
    obtain ⟨j1, hm1, hid1, hu1⟩ := h1
    obtain ⟨j2, hm2, hid2, hu2⟩ := h2
    have hid : j1.id = j2.id := hid1 ▸ hid2
    have hj12 : j1 = j2 := List.inj_on_of_nodup_map hnd hm1 hm2 hid
    have : some uid = some v := hu1 ▸ (hj12 ▸ hu2)
    exact hne (by injection this)

/-- Witness for C10 at a concrete two-user database. -/
theorem C10_rls_isolation_witness :
    JobRow.user_id ⟨"job1", some "u1", "check price", "running", 0, 0⟩ = some "u1" :=
  (C10_rls_isolation "u1"
      ⟨[⟨"job1", some "u1", "check price", "running", 0, 0⟩], [], []⟩).1
    ⟨"job1", some "u1", "check price", "running", 0, 0⟩ (by decide)

/-- C8: every UPDATE of a jobs row goes through the
update_jobs_updated_at trigger, which sets updated_at to the time of the
write; given a monotone clock this makes updated_at non-decreasing, and it
holds whatever columns the update statement itself touched. -/
theorem C8_trigger_bumps_updated_at (r : JobRow) (f : JobRow → JobRow) (t : Nat) :
    (jobUpdate r f t).updated_at = t ∧
    (r.updated_at ≤ t → r.updated_at ≤ (jobUpdate r f t).updated_at) := by
  constructor
  · rfl
  · intro h
    simpa [jobUpdate, update_updated_at_column] using h

/-- Witness for C8 at a concrete status transition. -/
theorem C8_trigger_bumps_updated_at_witness :
    (jobUpdate ⟨"job1", some "u1", "check price", "running", 0, 3⟩
        (fun r => { r with status := "completed" }) 7).updated_at = 7 ∧
      (3 ≤ 7 →
        3 ≤ (jobUpdate ⟨"job1", some "u1", "check price", "running", 0, 3⟩
          (fun r => { r with status := "completed" }) 7).updated_at) :=
  C8_trigger_bumps_updated_at ⟨"job1", some "u1", "check price", "running", 0, 3⟩
    (fun r => { r with status := "completed" }) 7

/-- The state of one job together with its single ApprovalRequest, the unit
the Approval Gate protocol acts on. -/
structure GateState where
  approval : ApprovalRow
  jobStatus : String
deriving DecidableEq

/-- Modelled from the spec: resolve(approvalId, decision).  Applying a
decision to a still-pending request records the decision and decided_at and
moves the job out of waiting_approval (approved resumes running, rejected
terminates); re-delivering the decision already applied is a no-op that
returns the original decision; a different decision on a resolved request
fails with Conflict and mutates nothing.  The backend resolver is not under
the repository sources; only the approvals schema is. -/
def resolve (s : GateState) (decision : String) (now : Nat) :
    Except String String × GateState :=
  if s.approval.status = "pending" then
    (Except.ok decision,
     { approval := { s.approval with status := decision, decided_at := some now },
       jobStatus :=
         if decision = "approved" then "running"
         else if decision = "rejected" then "rejected"
         else s.jobStatus })
  else if s.approval.status = decision then
    (Except.ok s.approval.status, s)
  else
    (Except.error "Conflict", s)

/-- Modelled from the spec: expire(approvalId), invoked by the timeout
watcher; it resolves the request to timed_out only if still pending and
fails the job, and otherwise changes nothing. -/
def expire (s : GateState) (now : Nat) : GateState :=
  if s.approval.status = "pending" then
    { approval := { s.approval with status := "timed_out", decided_at := some now },
      jobStatus := "failed" }
  else s

/-- C3: once a request is resolved with decision D, resolving it again with
the same D is a no-op that returns the original decision and leaves the
request and the job exactly as the first call left them. -/
theorem C3_resolve_idempotent (s s' : GateState) (D d : String) (n1 n2 : Nat)
    (hD : D ≠ "pending") (h : resolve s D n1 = (Except.ok d, s')) :
    resolve s' D n2 = (Except.ok d, s') ∧ d = D := by
  unfold resolve at h
  by_cases hp : s.approval.status = "pending"
  · rw [if_pos hp] at h
    obtain ⟨hd, hs⟩ := Prod.mk.injEq .. ▸ h
    have hdD : d = D := by
      have := hd
      injection this.symm
    subst hdD
    subst hs
    constructor
    · unfold resolve
      simp [hD, hd]
    · rfl
  · rw [if_neg hp] at h
    by_cases he : s.approval.status = D
    · rw [if_pos he] at h
      obtain ⟨hd, hs⟩ := Prod.mk.injEq .. ▸ h
      have hdv : d = s.approval.status := by injection hd.symm
      subst hs
      constructor
      · unfold resolve
        simp [hp, he, hdv, hD]
      · exact hdv.trans he
    · rw [if_neg he] at h
      obtain ⟨hd, _⟩ := Prod.mk.injEq .. ▸ h
      exact absurd hd (by simp)

/-- Witness for C3: a duplicate approve after an approve. -/
theorem C3_resolve_idempotent_witness :
    resolve ⟨⟨"a1", some "job1", "approved", some 5⟩, "running"⟩ "approved" 9 =
      (Except.ok "approved",
       ⟨⟨"a1", some "job1", "approved", some 5⟩, "running"⟩) ∧
    "approved" = "approved" :=
  C3_resolve_idempotent ⟨⟨"a1", some "job1", "pending", none⟩, "waiting_approval"⟩
    ⟨⟨"a1", some "job1", "approved", some 5⟩, "running"⟩
    "approved" "approved" 5 9 (by decide) (by rfl)

/-- C4: resolving an already-resolved request with a different decision
(reject after approve, or any decision after a timed_out resolution) fails
with Conflict and returns the state unchanged. -/
theorem C4_resolve_conflict (s : GateState) (d : String) (n : Nat)
    (hres : s.approval.status ≠ "pending") (hne : s.approval.status ≠ d) :
    resolve s d n = (Except.error "Conflict", s) := by
  unfold resolve
  rw [if_neg hres, if_neg hne]

/-- Witness for C4: an approve arriving after the timeout watcher already
resolved the request. -/
theorem C4_resolve_conflict_witness :
    resolve ⟨⟨"a1", some "job1", "timed_out", some 5⟩, "failed"⟩ "approved" 9 =
      (Except.error "Conflict",
       ⟨⟨"a1", some "job1", "timed_out", some 5⟩, "failed"⟩) :=
  C4_resolve_conflict ⟨⟨"a1", some "job1", "timed_out", some 5⟩, "failed"⟩
    "approved" 9 (by decide) (by decide)

/-- C6 counterexample: the claim says timed_out is a storable approval
status, produced by expire on a still-pending request.  The spec-modelled
expire does produce it, but the schema's approvals status CHECK rejects
the value timed_out, so it is not storable. -/
theorem C6_timed_out_not_storable :
    approvals_status_check "timed_out" = false ∧
    (expire ⟨⟨"a1", some "job1", "pending", none⟩, "waiting_approval"⟩ 7).approval.status
        = "timed_out" ∧
    approvals_status_check
        (expire ⟨⟨"a1", some "job1", "pending", none⟩,
          "waiting_approval"⟩ 7).approval.status = false := by
  decide

/-- C6 amended: an ApprovalRequest starts at the schema default pending;
it can move only to approved or rejected (each storable under the CHECK
constraint, while timed_out is not); and once resolved neither resolve
nor expire ever changes it again. -/
theorem C6_approval_lifecycle :
    (approvals_status_default = "pending" ∧
      approvals_status_check approvals_status_default = true ∧
      approvals_status_check "approved" = true ∧
      approvals_status_check "rejected" = true) ∧
    (∀ (s : GateState) (d : String) (n : Nat), s.approval.status = "pending" →
      (resolve s d n).2.approval.status = d) ∧
    (∀ (s : GateState) (d : String) (n : Nat), s.approval.status ≠ "pending" →
      (resolve s d n).2 = s) ∧
    (∀ (s : GateState) (n : Nat), s.approval.status ≠ "pending" →
      expire s n = s) := by
  refine ⟨by decide, ?_, ?_, ?_⟩
  · intro s d n hp
    unfold resolve
    rw [if_pos hp]
  · intro s d n hp
    unfold resolve
    rw [if_neg hp]
    by_cases he : s.approval.status = d
    · rw [if_pos he]
    · rw [if_neg he]
  · intro s n hp
    unfold expire
    rw [if_neg hp]

/-- Witness for C6 amended: resolving a concrete pending request. -/
theorem C6_approval_lifecycle_witness :
    (resolve ⟨⟨"a1", some "job1", "pending", none⟩, "waiting_approval"⟩
        "rejected" 4).2.approval.status = "rejected" :=
  C6_approval_lifecycle.2.1
    ⟨⟨"a1", some "job1", "pending", none⟩, "waiting_approval"⟩ "rejected" 4 rfl

/-- One TaskLogEntry as the spec's Event Bus writes it: the owning job, the
per-job sequence ordinal, the free-form payload, and the finished marker of
the task_logs table. -/
structure LogEntry where
  job_id : String
  sequence : Nat
  payload : String
  finished : Bool
deriving DecidableEq

/-- The log entries of one job, in write order. -/
def jobLog (logs : List LogEntry) (j : String) : List LogEntry :=
  logs.filter (fun e => e.job_id = j)

/-- Modelled from the spec: appendLog(jobId, entry) -> sequence, the Event
Bus write that assigns the next sequence number for that job atomically
with the append.  The task_logs table itself stores no sequence column, so
the assignment lives in the application layer, which is not under the
repository sources. -/
def appendLog (logs : List LogEntry) (jobId payload : String) (fl : Bool) :
    List LogEntry × Nat :=
  let seq := (logs.filter (fun e => e.job_id = jobId)).length + 1
  (logs ++ [⟨jobId, seq, payload, fl⟩], seq)

/-- A batch of appendLog calls applied from a given persisted state. -/
def runAppendsFrom (logs : List LogEntry)
    (ops : List (String × String × Bool)) : List LogEntry :=
  ops.foldl (fun acc op => (appendLog acc op.1 op.2.1 op.2.2).1) logs

/-- A batch of appendLog calls applied from the empty store. -/
def runAppends (ops : List (String × String × Bool)) : List LogEntry :=
  runAppendsFrom [] ops

/-- The Event Bus invariant: every job's log carries the sequences
1, 2, ..., N in write order. -/
def seqInvariant (logs : List LogEntry) : Prop :=
  ∀ j, (jobLog logs j).map LogEntry.sequence =
    List.range' 1 (jobLog logs j).length

theorem jobLog_append (logs : List LogEntry) (e : LogEntry) (j : String) :
    jobLog (logs ++ [e]) j =
      jobLog logs j ++ if e.job_id = j then [e] else [] := by
  by_cases h : e.job_id = j <;>
    simp [jobLog, List.filter_append, h]

theorem seqInvariant_nil : seqInvariant [] := by
  intro j
  simp [jobLog]

theorem seqInvariant_append (logs : List LogEntry) (h : seqInvariant logs)
    (jid payload : String) (fl : Bool) :
    seqInvariant (appendLog logs jid payload fl).1 := by
  intro j
  have hstate : (appendLog logs jid payload fl).1 =
      logs ++ [⟨jid, (jobLog logs jid).length + 1, payload, fl⟩] := rfl
  rw [hstate, jobLog_append]
  by_cases hj : jid = j
  · subst hj
    rw [if_pos rfl, List.map_append, h jid]
    simp [List.range'_1_concat, Nat.add_comm]
  · rw [if_neg hj, List.append_nil]
    exact h j

theorem runAppendsFrom_invariant (ops : List (String × String × Bool)) :
    ∀ logs : List LogEntry, seqInvariant logs →
      seqInvariant (runAppendsFrom logs ops) := by
  induction ops with
  | nil => intro logs h; exact h
  | cons op rest ih =>
      intro logs h
      exact ih _ (seqInvariant_append logs h op.1 op.2.1 op.2.2)

theorem runAppends_invariant (ops : List (String × String × Bool)) :
    seqInvariant (runAppends ops) :=
  runAppendsFrom_invariant ops [] seqInvariant_nil

theorem range'_take (s n k : Nat) :
    (List.range' s n).take k = List.range' s (min k n) := by
  induction n generalizing s k with
  | zero => simp
  | succ n ih =>
      cases k with
      | zero => simp
      | succ k =>
          rw [List.range'_succ, List.take_succ_cons, ih (s + 1) k,
            Nat.succ_min_succ, List.range'_succ]

/-- C2: in any state reached by appendLog writes, every job's visible log
carries exactly the sequences 1..N in order, every readable prefix carries
exactly 1..min k N, and once a sequence is visible every smaller positive
sequence is visible too. -/
theorem C2_sequences_gap_free (ops : List (String × String × Bool))
    (j : String) (k : Nat) :
    (jobLog (runAppends ops) j).map LogEntry.sequence =
      List.range' 1 (jobLog (runAppends ops) j).length ∧
    ((jobLog (runAppends ops) j).take k).map LogEntry.sequence =
      List.range' 1 (min k (jobLog (runAppends ops) j).length) ∧
    (∀ e ∈ (jobLog (runAppends ops) j).take k, ∀ m : Nat, 0 < m →
      m ≤ e.sequence →
      ∃ e' ∈ (jobLog (runAppends ops) j).take k, e'.sequence = m) := by
  have hinv := runAppends_invariant ops j
  have hpre : ((jobLog (runAppends ops) j).take k).map LogEntry.sequence =
      List.range' 1 (min k (jobLog (runAppends ops) j).length) := by
    rw [List.map_take, hinv, range'_take]
  refine ⟨hinv, hpre, ?_⟩
  intro e he m hm hle
  have hseq : e.sequence ∈
      List.range' 1 (min k (jobLog (runAppends ops) j).length) := by
    rw [← hpre]
    exact List.mem_map_of_mem LogEntry.sequence he
  have hb := List.mem_range'_1.mp hseq
  have hmm : m ∈ List.range' 1 (min k (jobLog (runAppends ops) j).length) :=
    List.mem_range'_1.mpr ⟨hm, by omega⟩
  rw [← hpre] at hmm
  obtain ⟨e', he', heq⟩ := List.mem_map.mp hmm
  exact ⟨e', he', heq⟩

/-- Witness for C2: with sequences 1 and 2 visible, sequence 1 is visible. -/
theorem C2_sequences_gap_free_witness :
    ∃ e' ∈ (jobLog (runAppends [("j1", "go", false), ("j1", "done", true)])
      "j1").take 2, e'.sequence = 1 :=
  (C2_sequences_gap_free [("j1", "go", false), ("j1", "done", true)] "j1" 2).2.2
    ⟨"j1", 2, "done", true⟩ (by decide) 1 (by decide) (by decide)

/-- Modelled from the spec: getLogs(jobId, afterSequence) /
readLogsSince(jobId, afterSequence): the read-only query returning the
job's log entries with sequence greater than afterSequence, in log order.
The dashboard's fetchLogs has no afterSequence parameter and orders by
created_at; the spec's query surface belongs to the backend, which is not
under the repository sources. -/
def getLogs (logs : List LogEntry) (jobId : String) (afterSeq : Nat) :
    List LogEntry :=
  (jobLog logs jobId).filter (fun e => afterSeq < e.sequence)

/-- The query operation over the persisted state: it returns its result
together with the state, which it leaves untouched. -/
def getLogsQuery (logs : List LogEntry) (jobId : String) (afterSeq : Nat) :
    List LogEntry × List LogEntry :=
  (getLogs logs jobId afterSeq, logs)

/-- C7: getLogs with afterSequence 0 returns the whole job log, entries
1..N in ascending order; after further appends, getLogs with afterSequence
N returns only entries with larger sequences and re-returns none of the
first N; and the query leaves the persisted state unchanged. -/
theorem C7_getLogs_pagination (ops more : List (String × String × Bool))
    (j : String) :
    getLogs (runAppends ops) j 0 = jobLog (runAppends ops) j ∧
    (getLogs (runAppends ops) j 0).map LogEntry.sequence =
      List.range' 1 (getLogs (runAppends ops) j 0).length ∧
    (∀ e ∈ getLogs (runAppendsFrom (runAppends ops) more) j
        (getLogs (runAppends ops) j 0).length,
      (getLogs (runAppends ops) j 0).length < e.sequence ∧
        e ∉ getLogs (runAppends ops) j 0) ∧
    (∀ (db : List LogEntry) (a : Nat), getLogsQuery db j a = (getLogs db j a, db)) := by
  have hinv := runAppends_invariant ops j
  have hall : getLogs (runAppends ops) j 0 = jobLog (runAppends ops) j := by
    unfold getLogs
    rw [List.filter_eq_self]
    intro e he
    have hseq : e.sequence ∈
        List.range' 1 (jobLog (runAppends ops) j).length := by
      rw [← hinv]
      exact List.mem_map_of_mem LogEntry.sequence he
    have := (List.mem_range'_1.mp hseq).1
    simpa using Nat.lt_of_lt_of_le Nat.zero_lt_one this
  refine ⟨hall, by rw [hall]; exact hinv, ?_, fun db a => rfl⟩
  intro e he
  have hgt : (getLogs (runAppends ops) j 0).length < e.sequence :=
    of_decide_eq_true (List.mem_filter.mp he).2
  refine ⟨hgt, fun hmem => ?_⟩
  have hseq : e.sequence ∈
      List.range' 1 (jobLog (runAppends ops) j).length := by
    rw [← hinv]
    exact List.mem_map_of_mem LogEntry.sequence (hall ▸ hmem)
  have hle := (List.mem_range'_1.mp hseq).2
  rw [hall] at hgt
  omega

/-- Witness for C7: the entry appended after the first page has a sequence
beyond the page and is not part of the first page. -/
theorem C7_getLogs_pagination_witness :
    (getLogs (runAppends [("j1", "a", false)]) "j1" 0).length <
      LogEntry.sequence ⟨"j1", 2, "b", false⟩ ∧
    (⟨"j1", 2, "b", false⟩ : LogEntry) ∉
      getLogs (runAppends [("j1", "a", false)]) "j1" 0 :=
  (C7_getLogs_pagination [("j1", "a", false)] [("j1", "b", false)] "j1").2.2.1
    ⟨"j1", 2, "b", false⟩ (by decide)

/-- Modelled from the spec: launch(goal, ownerId) -> jobId fails with
InvalidGoal on an empty goal and otherwise creates the jobs row with the
stated goal (a NOT NULL column), the owner, and the schema's default
status.  The backend endpoint is not under the repository sources. -/
def launch (goal ownerId newId : String) (now : Nat) : Except String JobRow :=
  if goal = "" then Except.error "InvalidGoal"
  else Except.ok
    { id := newId, user_id := some ownerId, goal := goal,
      status := jobs_status_default, created_at := now, updated_at := now }

/-- C9: launching with an empty goal fails with InvalidGoal and creates no
job; launching with a non-empty goal yields a job whose goal is that
non-empty string, owned by the requester, in the default pending status. -/
theorem C9_launch_validates_goal (goal ownerId newId : String) (now : Nat) :
    (goal = "" → launch goal ownerId newId now = Except.error "InvalidGoal") ∧
    (goal ≠ "" → ∃ j : JobRow, launch goal ownerId newId now = Except.ok j ∧
      j.goal = goal ∧ j.goal ≠ "" ∧ j.user_id = some ownerId ∧
      j.status = jobs_status_default) := by
  constructor
  · intro h
    simp [launch, h]
  · intro h
    refine ⟨⟨newId, some ownerId, goal, jobs_status_default, now, now⟩,
      ?_, rfl, h, rfl, rfl⟩
    simp [launch, h]

/-- Witness for C9 at a concrete non-empty goal. -/
theorem C9_launch_validates_goal_witness :
    ∃ j : JobRow, launch "check price on example.com" "u1" "job1" 0 =
        Except.ok j ∧
      j.goal = "check price on example.com" ∧ j.goal ≠ "" ∧
      j.user_id = some "u1" ∧ j.status = jobs_status_default :=
  (C9_launch_validates_goal "check price on example.com" "u1" "job1" 0).2
    (by decide)

end Ghost
